import Mathlib

/-!
Verification of the capability-dispatch layer (tool registry and tools).

Shallow embedding of the two source files:
  * `tool_registry.py` — the `ToolRegistry` class: a name-keyed mapping built
    from a list of tools (Python `dict` comprehension: insertion order, with
    last-write-wins on duplicate keys), `schemas()` and `execute(name, args)`.
  * `tools.py` — the six concrete tools.  External collaborators (the RSS feed
    retrieval of `fetch_news`, the TextBlob polarity scorer of
    `analyze_sentiment`) are modelled as function parameters; the chart
    rendering of `plot_topic_frequency` is a side effect whose output is never
    consulted and is not modelled.  Python floats are modelled by `ℚ`
    (exact where the claims touch them) and Python `round` by
    round-half-to-even.

Python exceptions are modelled by `Except Err`: the registry's
`ValueError(f"Tool ... not registered")` becomes `Err.toolNotFound name`
(the spec's `ToolNotFoundError`, carrying the unresolved name), the
`ValueError` raised by unpacking `zip(*[])` becomes `Err.valueError`, and a
keyword-argument binding failure of `run(**args)` becomes `Err.typeError`.
-/

/-- A JSON-like argument / result value.  The repository only ever passes
strings, integers, booleans, numbers and arrays of strings. -/
inductive Value where
  | vStr : String → Value
  | vInt : Int → Value
  | vBool : Bool → Value
  | vRat : ℚ → Value
  | vStrList : List String → Value
deriving DecidableEq, Repr

/-- Python exceptions observable through the dispatch layer. -/
inductive Err where
  | toolNotFound : String → Err
  | valueError : String → Err
  | typeError : String → Err
deriving DecidableEq, Repr

/-- An argument mapping (Python keyword-argument dict), ordered. -/
abbrev Args := List (String × Value)

/-- A tool result object (Python dict), ordered. -/
abbrev Obj := List (String × Value)

/-- One parameter entry of a tool schema: name, JSON type tag, optional
enum of allowed strings, optional item type for arrays. -/
structure ParamSpec where
  pname : String
  ptype : String
  penum : Option (List String)
  pitems : Option String
deriving DecidableEq, Repr

/-- The nested `function` object of the exported schema shape. -/
structure FunctionSchema where
  fname : String
  fdescription : String
  properties : List ParamSpec
  required : List String
deriving DecidableEq, Repr

/-- The exported schema object: `{type: "function", function: {...}}`. -/
structure ToolSchema where
  stype : String
  sfunction : FunctionSchema
deriving DecidableEq, Repr

/-- `BaseTool`: name, description, static schema, and the execution
function (`run(**args)` seen at the argument-dict level). -/
structure BaseTool where
  name : String
  description : String
  schema : ToolSchema
  run : Args → Except Err Obj

/-- Keyword lookup in an argument dict (first match; keys are unique in
every dict the embedding builds). -/
def lookupArg (args : Args) (k : String) : Option Value :=
  (args.find? (fun p => p.1 == k)).map Prod.snd

/-- Python `dict` insertion: overwrite in place when the key is present
(keeping its position), append otherwise. -/
def dictInsert (d : List (String × BaseTool)) (k : String) (v : BaseTool) :
    List (String × BaseTool) :=
  if d.any (fun p => p.1 == k) then
    d.map (fun p => if p.1 == k then (k, v) else p)
  else d ++ [(k, v)]

/-- The registry's `{tool.name: tool for tool in tools}` dict comprehension. -/
def buildDict (tools : List BaseTool) : List (String × BaseTool) :=
  tools.foldl (fun d t => dictInsert d t.name t) []

/-- Dict key lookup (`name in self._tools` / `self._tools[name]`). -/
def dictFind (d : List (String × BaseTool)) (k : String) : Option BaseTool :=
  (d.find? (fun p => p.1 == k)).map Prod.snd

/-- `ToolRegistry`: the name-keyed mapping `_tools`. -/
structure ToolRegistry where
  _tools : List (String × BaseTool)

/-- `ToolRegistry.__init__(tools)`. -/
def ToolRegistry.ofList (tools : List BaseTool) : ToolRegistry :=
  ⟨buildDict tools⟩

/-- `schemas()`: one schema per entry of the mapping, in insertion order. -/
def ToolRegistry.schemas (r : ToolRegistry) : List ToolSchema :=
  r._tools.map (fun p => p.2.schema)

/-- `execute(name, args)`: raise if `name` is not a key, else delegate to
the tool's `run` and return its result (or its exception) unchanged. -/
def ToolRegistry.execute (r : ToolRegistry) (name : String) (args : Args) :
    Except Err Obj :=
  match dictFind r._tools name with
  | none => .error (.toolNotFound name)
  | some t => t.run args

/-- `ChooseTransportTool.run` body over its declared parameter types. -/
def chooseTransportRun (sla_hours : Int) (volume : Int) (push : Bool) : Obj :=
  if push = true ∧ sla_hours ≥ 2 ∧ volume ≥ 1000 then
    [("transport", Value.vStr "Kafka")]
  else
    [("transport", Value.vStr "API")]

/-- `ChooseTransportTool.schema()`. -/
def chooseTransportSchema : ToolSchema :=
  ⟨"function", ⟨"choose_transport", "Choose Kafka vs API based on system constraints",
    [⟨"sla_hours", "integer", none, none⟩,
     ⟨"volume", "integer", none, none⟩,
     ⟨"push", "boolean", none, none⟩],
    ["sla_hours", "volume", "push"]⟩⟩

/-- `ChooseTransportTool`. -/
def chooseTransportTool : BaseTool where
  name := "choose_transport"
  description := "Choose Kafka vs API based on system constraints"
  schema := chooseTransportSchema
  run := fun args =>
    match lookupArg args "sla_hours", lookupArg args "volume", lookupArg args "push" with
    | some (.vInt s), some (.vInt v), some (.vBool p) => .ok (chooseTransportRun s v p)
    | _, _, _ => .error (.typeError "choose_transport")

/-- `EstimateCostTool.run` body: a two-entry lookup keyed on `transport`;
`volume` is accepted but never read. -/
def estimateCostRun (transport : String) (volume : Int) : Obj :=
  if transport = "Kafka" then
    [("cost", Value.vStr "Medium–High (broker, ops, storage)")]
  else
    [("cost", Value.vStr "Low–Medium (stateless scaling)")]

/-- `EstimateCostTool.schema()`. -/
def estimateCostSchema : ToolSchema :=
  ⟨"function", ⟨"estimate_cost", "Estimate relative infrastructure cost",
    [⟨"transport", "string", some ["Kafka", "API"], none⟩,
     ⟨"volume", "integer", none, none⟩],
    ["transport", "volume"]⟩⟩

/-- `EstimateCostTool`. -/
def estimateCostTool : BaseTool where
  name := "estimate_cost"
  description := "Estimate relative infrastructure cost"
  schema := estimateCostSchema
  run := fun args =>
    match lookupArg args "transport", lookupArg args "volume" with
    | some (.vStr t), some (.vInt v) => .ok (estimateCostRun t v)
    | _, _ => .error (.typeError "estimate_cost")

/-- `EstimateLatencyTool.run` body: a two-entry lookup keyed on `transport`;
`sla_hours` is accepted but never read. -/
def estimateLatencyRun (transport : String) (sla_hours : Int) : Obj :=
  if transport = "Kafka" then
    [("latency", Value.vStr "Seconds–Minutes (async)")]
  else
    [("latency", Value.vStr "Milliseconds–Seconds (sync)")]

/-- `EstimateLatencyTool.schema()`. -/
def estimateLatencySchema : ToolSchema :=
  ⟨"function", ⟨"estimate_latency", "Estimate end-to-end system latency",
    [⟨"transport", "string", some ["Kafka", "API"], none⟩,
     ⟨"sla_hours", "integer", none, none⟩],
    ["transport", "sla_hours"]⟩⟩

/-- `EstimateLatencyTool`. -/
def estimateLatencyTool : BaseTool where
  name := "estimate_latency"
  description := "Estimate end-to-end system latency"
  schema := estimateLatencySchema
  run := fun args =>
    match lookupArg args "transport", lookupArg args "sla_hours" with
    | some (.vStr t), some (.vInt s) => .ok (estimateLatencyRun t s)
    | _, _ => .error (.typeError "estimate_latency")

/-- `FetchNewsTool.run` body.  The feed-retrieval collaborator
(`feedparser.parse` returning entry titles, in source order) is out of
scope and passed in as `feed`. -/
def fetchNewsRun (feed : String → List String) (topic : String) (limit : Int) : Obj :=
  [("headlines",
    Value.vStrList ((feed ("https://news.google.com/rss/search?q=" ++ topic)).take limit.toNat))]

/-- `FetchNewsTool.schema()`. -/
def fetchNewsSchema : ToolSchema :=
  ⟨"function", ⟨"fetch_news", "Fetch latest news headlines using open RSS feeds",
    [⟨"topic", "string", none, none⟩,
     ⟨"limit", "integer", none, none⟩],
    ["topic", "limit"]⟩⟩

/-- `FetchNewsTool`, parametrised by the feed collaborator. -/
def fetchNewsTool (feed : String → List String) : BaseTool where
  name := "fetch_news"
  description := "Fetch latest news headlines using open RSS feeds"
  schema := fetchNewsSchema
  run := fun args =>
    match lookupArg args "topic", lookupArg args "limit" with
    | some (.vStr t), some (.vInt l) => .ok (fetchNewsRun feed t l)
    | _, _ => .error (.typeError "fetch_news")

/-- Split a character list at every whitespace character (pieces may be
empty, as with Python `str.split(sep)`); `cur` accumulates the current
piece in reverse. -/
def splitWSAux : List Char → List Char → List (List Char)
  | [], cur => [cur.reverse]
  | c :: cs, cur =>
    if c.isWhitespace then cur.reverse :: splitWSAux cs []
    else splitWSAux cs (c :: cur)

/-- Python `h.split()`: split on whitespace, discarding empty pieces. -/
def pySplit (h : String) : List String :=
  ((splitWSAux h.data []).map String.mk).filter (fun w => w ≠ "")

/-- Python `w.lower()` (ASCII case folding, which covers the repository's
inputs). -/
def pyLower (s : String) : String := String.mk (s.data.map Char.toLower)

/-- The word list built by `PlotTopicFrequencyTool.run`: for each headline,
the whitespace tokens of length > 3, lower-cased. -/
def plotWords (headlines : List String) : List String :=
  headlines.flatMap (fun h => ((pySplit h).filter (fun w => 3 < w.length)).map pyLower)

/-- One `Counter` update: increment an existing key in place, else append
with count 1 (Python dict insertion order). -/
def counterBump (acc : List (String × Nat)) (w : String) : List (String × Nat) :=
  if acc.any (fun p => p.1 == w) then
    acc.map (fun p => if p.1 == w then (p.1, p.2 + 1) else p)
  else acc ++ [(w, 1)]

/-- `Counter(words).items()`: counts keyed in first-encounter order. -/
def counterItems (ws : List String) : List (String × Nat) :=
  ws.foldl counterBump []

/-- Count-descending comparison used by `most_common`. -/
def cntGE (a b : String × Nat) : Prop := b.2 ≤ a.2

instance : DecidableRel cntGE := fun a b => Nat.decLe b.2 a.2

instance : IsTotal (String × Nat) cntGE := ⟨fun a b => Nat.le_total b.2 a.2⟩

instance : IsTrans (String × Nat) cntGE := ⟨fun _ _ _ hab hbc => le_trans hbc hab⟩

/-- `Counter(words).most_common(10)`: stable sort by count descending, then
the first 10 (ties keep first-encounter order; insertion sort is stable). -/
def plotChartData (headlines : List String) : List (String × Nat) :=
  (List.insertionSort cntGE (counterItems (plotWords headlines))).take 10

/-- `PlotTopicFrequencyTool.run` body: `labels, values = zip(*counts)`
raises `ValueError` when `counts` is empty; otherwise the chart is rendered
(side effect, output never consulted) and `{status: "plot_created"}` is
returned. -/
def plotTopicFrequencyRun (headlines : List String) : Except Err Obj :=
  if plotChartData headlines = [] then
    .error (.valueError "not enough values to unpack")
  else
    .ok [("status", Value.vStr "plot_created")]

/-- `PlotTopicFrequencyTool.schema()`. -/
def plotTopicFrequencySchema : ToolSchema :=
  ⟨"function", ⟨"plot_topic_frequency", "Plot most frequent words in headlines",
    [⟨"headlines", "array", none, some "string"⟩],
    ["headlines"]⟩⟩

/-- `PlotTopicFrequencyTool`. -/
def plotTopicFrequencyTool : BaseTool where
  name := "plot_topic_frequency"
  description := "Plot most frequent words in headlines"
  schema := plotTopicFrequencySchema
  run := fun args =>
    match lookupArg args "headlines" with
    | some (.vStrList hs) => plotTopicFrequencyRun hs
    | _ => .error (.typeError "plot_topic_frequency")

/-- Python `round` to an integer: round half to even. -/
def pyRoundHalfEven (q : ℚ) : ℤ :=
  let f := Int.floor q
  let frac := q - f
  if frac < 1 / 2 then f
  else if 1 / 2 < frac then f + 1
  else if f % 2 = 0 then f else f + 1

/-- Python `round(q, 3)`. -/
def pyRound3 (q : ℚ) : ℚ := (pyRoundHalfEven (q * 1000) : ℚ) / 1000

/-- `AnalyzeSentimentTool.run` body.  The per-headline polarity scorer
(TextBlob) is out of scope and passed in as `polarity`.  The average of an
empty score list is the explicit `0` default, not a division. -/
def analyzeSentimentRun (polarity : String → ℚ) (headlines : List String) : Obj :=
  let scores := headlines.map polarity
  let avg : ℚ := if scores = [] then 0 else scores.sum / scores.length
  [("average_sentiment", Value.vRat (pyRound3 avg))]

/-- `AnalyzeSentimentTool.schema()`. -/
def analyzeSentimentSchema : ToolSchema :=
  ⟨"function", ⟨"analyze_sentiment", "Analyze sentiment of text headlines",
    [⟨"headlines", "array", none, some "string"⟩],
    ["headlines"]⟩⟩

/-- `AnalyzeSentimentTool`, parametrised by the polarity collaborator. -/
def analyzeSentimentTool (polarity : String → ℚ) : BaseTool where
  name := "analyze_sentiment"
  description := "Analyze sentiment of text headlines"
  schema := analyzeSentimentSchema
  run := fun args =>
    match lookupArg args "headlines" with
    | some (.vStrList hs) => .ok (analyzeSentimentRun polarity hs)
    | _ => .error (.typeError "analyze_sentiment")

/-- The six tools of `tools.py`, in source order, with the two external
collaborators as parameters. -/
def allTools (feed : String → List String) (polarity : String → ℚ) : List BaseTool :=
  [chooseTransportTool, estimateCostTool, estimateLatencyTool,
   fetchNewsTool feed, plotTopicFrequencyTool, analyzeSentimentTool polarity]

/-- JSON type tag of a value, for schema conformance. -/
def Value.typeTag : Value → String
  | .vStr _ => "string"
  | .vInt _ => "integer"
  | .vBool _ => "boolean"
  | .vRat _ => "number"
  | .vStrList _ => "array"

/-- An argument dict conforms to a schema when every required parameter is
present and every supplied argument matches a declared parameter's type. -/
def conformsTo (args : Args) (s : ToolSchema) : Bool :=
  s.sfunction.required.all (fun r => (lookupArg args r).isSome) &&
  args.all (fun p =>
    s.sfunction.properties.any (fun ps => ps.pname == p.1 && ps.ptype == p.2.typeTag))

/-- The last tool of `L` carrying name `q`, if any. -/
def lastTool (L : List BaseTool) (q : String) : Option BaseTool :=
  L.reverse.find? (fun u => u.name == q)

/-- Keys of the dict model, in order. -/
def keysOf (d : List (String × BaseTool)) : List String := d.map Prod.fst

/-- A second tool carrying the name `estimate_cost`, used as a concrete
input exercising duplicate-name registration. -/
def estimateCostToolAlt : BaseTool where
  name := "estimate_cost"
  description := "Alternative cost estimator"
  schema := estimateCostSchema
  run := fun _ => .ok [("cost", Value.vStr "flat")]

/-! ### Dictionary lemmas

Behaviour of the Python-dict model: lookup after insert, and lookup in the
dict built by the registry's comprehension. -/

/-- Overwriting key `k` does not change lookups of other keys. -/
theorem find_map_overwrite_ne (d : List (String × BaseTool)) (k q : String) (v : BaseTool)
    (hqk : q ≠ k) :
    (d.map (fun p => if p.1 == k then (k, v) else p)).find? (fun p => p.1 == q)
      = d.find? (fun p => p.1 == q) := by
  induction d with
  | nil => rfl
  | cons p d ih =>
    simp only [List.map_cons]
    by_cases hpk : p.1 = k
    · rw [if_pos (by simpa using hpk)]
      rw [List.find?_cons_of_neg _ (by simpa using fun h => hqk h.symm),
          List.find?_cons_of_neg _ (by simp [hpk]; exact fun h => hqk h.symm), ih]
    · rw [if_neg (by simpa using hpk)]
      by_cases hpq : p.1 = q
      · rw [List.find?_cons_of_pos _ (by simpa using hpq),
            List.find?_cons_of_pos _ (by simpa using hpq)]
      · rw [List.find?_cons_of_neg _ (by simpa using hpq),
            List.find?_cons_of_neg _ (by simpa using hpq), ih]

/-- Appending a fresh binding does not change lookups of other keys. -/
theorem find_append_single_ne (d : List (String × BaseTool)) (k q : String) (v : BaseTool)
    (hqk : q ≠ k) :
    (d ++ [(k, v)]).find? (fun p => p.1 == q) = d.find? (fun p => p.1 == q) := by
  rw [List.find?_append]
  have h1 : ([(k, v)].find? (fun p => p.1 == q)) = none := by
    rw [List.find?_eq_none]
    intro x hx
    simp at hx
    subst hx
    simpa using fun h => hqk h.symm
  rw [h1, Option.or_none]

/-- After overwriting key `k`, looking up `k` yields the new binding. -/
theorem find_map_overwrite_self (d : List (String × BaseTool)) (k : String) (v : BaseTool)
    (h : d.any (fun p => p.1 == k) = true) :
    (d.map (fun p => if p.1 == k then (k, v) else p)).find? (fun p => p.1 == k)
      = some (k, v) := by
  induction d with
  | nil => simp at h
  | cons p d ih =>
    simp only [List.map_cons]
    by_cases hpk : p.1 = k
    · rw [if_pos (by simpa using hpk)]
      rw [List.find?_cons_of_pos _ (by simp)]
    · rw [if_neg (by simpa using hpk)]
      rw [List.find?_cons_of_neg _ (by simpa using hpk)]
      apply ih
      simp only [List.any_cons, Bool.or_eq_true] at h
      rcases h with h1 | h1
      · exact absurd (by simpa using h1) hpk
      · exact h1

/-- After appending a fresh binding for `k`, looking up `k` yields it. -/
theorem find_append_single_self (d : List (String × BaseTool)) (k : String) (v : BaseTool)
    (h : d.any (fun p => p.1 == k) = false) :
    (d ++ [(k, v)]).find? (fun p => p.1 == k) = some (k, v) := by
  rw [List.find?_append]
  have hd : d.find? (fun p => p.1 == k) = none := by
    rw [List.find?_eq_none]
    intro x hx hxk
    have hany : d.any (fun p => p.1 == k) = true := List.any_eq_true.mpr ⟨x, hx, hxk⟩
    rw [h] at hany
    cases hany
  rw [hd, Option.none_or]
  rw [List.find?_cons_of_pos _ (by simp)]

/-- `dictInsert` then lookup of a different key. -/
theorem dictFind_insert_ne (d : List (String × BaseTool)) (k q : String) (v : BaseTool)
    (hqk : q ≠ k) :
    dictFind (dictInsert d k v) q = dictFind d q := by
  unfold dictFind dictInsert
  by_cases h : d.any (fun p => p.1 == k) = true
  · rw [if_pos h, find_map_overwrite_ne d k q v hqk]
  · rw [if_neg h, find_append_single_ne d k q v hqk]

/-- `dictInsert` then lookup of the inserted key. -/
theorem dictFind_insert_self (d : List (String × BaseTool)) (k : String) (v : BaseTool) :
    dictFind (dictInsert d k v) k = some v := by
  unfold dictFind dictInsert
  by_cases h : d.any (fun p => p.1 == k) = true
  · rw [if_pos h, find_map_overwrite_self d k v h]
    rfl
  · rw [if_neg h, find_append_single_self d k v
      (by simp only [Bool.not_eq_true] at h; exact h)]
    rfl

theorem lastTool_cons (t : BaseTool) (L : List BaseTool) (q : String) :
    lastTool (t :: L) q = (lastTool L q).or (if t.name == q then some t else none) := by
  unfold lastTool
  rw [List.reverse_cons, List.find?_append]
  congr 1
  by_cases h : t.name = q
  · rw [if_pos (by simpa using h), List.find?_cons_of_pos _ (by simpa using h)]
  · rw [if_neg (by simpa using h), List.find?_cons_of_neg _ (by simpa using h)]
    rfl

/-- Folding the dict comprehension: the result of a lookup is the last tool
of the list with that name, else whatever the accumulator held. -/
theorem dictFind_foldl (L : List BaseTool) (d : List (String × BaseTool)) (q : String) :
    dictFind (L.foldl (fun d t => dictInsert d t.name t) d) q
      = (lastTool L q).or (dictFind d q) := by
  induction L generalizing d with
  | nil => simp [lastTool, Option.none_or]
  | cons t L ih =>
    rw [List.foldl_cons, ih, lastTool_cons, Option.or_assoc]
    congr 1
    by_cases h : q = t.name
    · subst h
      rw [dictFind_insert_self, if_pos (by simp)]
      rfl
    · rw [dictFind_insert_ne d t.name q t h,
          if_neg (by simpa using fun hh => h hh.symm), Option.none_or]

/-- Lookup in the registry's dict: the last tool of the list with that name. -/
theorem dictFind_buildDict (L : List BaseTool) (q : String) :
    dictFind (buildDict L) q = lastTool L q := by
  unfold buildDict
  rw [dictFind_foldl]
  simp [dictFind, Option.or_none]

/-- A name carried by no tool of `L` is absent from the registry's dict. -/
theorem lastTool_eq_none (L : List BaseTool) (name : String)
    (h : name ∉ L.map (fun t => t.name)) :
    lastTool L name = none := by
  unfold lastTool
  rw [List.find?_eq_none]
  intro u hu
  simp only [beq_iff_eq]
  intro hq
  exact h (hq ▸ List.mem_map_of_mem _ (List.mem_reverse.mp hu))

theorem keysOf_dictInsert (d : List (String × BaseTool)) (k : String) (v : BaseTool) :
    keysOf (dictInsert d k v)
      = if d.any (fun p => p.1 == k) then keysOf d else keysOf d ++ [k] := by
  unfold dictInsert keysOf
  by_cases h : d.any (fun p => p.1 == k) = true
  · rw [if_pos h, if_pos h, List.map_map]
    apply List.map_congr_left
    intro p _
    simp only [Function.comp_apply]
    by_cases hpk : p.1 = k
    · rw [if_pos (by simpa using hpk)]
      exact hpk.symm
    · rw [if_neg (by simpa using hpk)]
  · rw [if_neg h, if_neg h, List.map_append]
    rfl

theorem keysOf_dictInsert_nodup (d : List (String × BaseTool)) (k : String) (v : BaseTool)
    (hd : (keysOf d).Nodup) : (keysOf (dictInsert d k v)).Nodup := by
  rw [keysOf_dictInsert]
  by_cases h : d.any (fun p => p.1 == k) = true
  · rw [if_pos h]; exact hd
  · rw [if_neg h, List.nodup_append]
    refine ⟨hd, List.nodup_singleton k, ?_⟩
    intro a ha hb
    have hak : a = k := by simpa using hb
    subst hak
    rcases List.mem_map.mp ha with ⟨p, hp, hpk⟩
    have : d.any (fun p => p.1 == a) = true :=
      List.any_eq_true.mpr ⟨p, hp, by simpa using hpk⟩
    exact h this

theorem keysOf_dictInsert_toFinset (d : List (String × BaseTool)) (k : String) (v : BaseTool) :
    (keysOf (dictInsert d k v)).toFinset = insert k (keysOf d).toFinset := by
  rw [keysOf_dictInsert]
  by_cases h : d.any (fun p => p.1 == k) = true
  · rw [if_pos h]
    have hk : k ∈ (keysOf d).toFinset := by
      rcases List.any_eq_true.mp h with ⟨p, hp, hpk⟩
      rw [List.mem_toFinset]
      exact (by simpa using hpk : p.1 = k) ▸ List.mem_map_of_mem _ hp
    rw [Finset.insert_eq_self.mpr hk]
  · rw [if_neg h, List.toFinset_append]
    simp [Finset.union_comm, Finset.insert_eq]

theorem keysOf_buildDict_aux (L : List BaseTool) (d : List (String × BaseTool))
    (hd : (keysOf d).Nodup) :
    (keysOf (L.foldl (fun d t => dictInsert d t.name t) d)).Nodup
    ∧ (keysOf (L.foldl (fun d t => dictInsert d t.name t) d)).toFinset
        = (keysOf d).toFinset ∪ (L.map (fun t => t.name)).toFinset := by
  induction L generalizing d with
  | nil => simp [hd]
  | cons t L ih =>
    rw [List.foldl_cons]
    obtain ⟨h1, h2⟩ := ih (dictInsert d t.name t) (keysOf_dictInsert_nodup d t.name t hd)
    refine ⟨h1, ?_⟩
    rw [h2, keysOf_dictInsert_toFinset, List.map_cons, List.toFinset_cons,
        Finset.insert_union, Finset.union_insert]

theorem keysOf_buildDict_nodup (L : List BaseTool) : (keysOf (buildDict L)).Nodup :=
  (keysOf_buildDict_aux L [] (by simp [keysOf])).1

theorem keysOf_buildDict_toFinset (L : List BaseTool) :
    (keysOf (buildDict L)).toFinset = (L.map (fun t => t.name)).toFinset := by
  have h2 := (keysOf_buildDict_aux L [] (by simp [keysOf])).2
  rw [show keysOf ([] : List (String × BaseTool)) = [] from rfl, List.toFinset_nil,
      Finset.empty_union] at h2
  exact h2

/-- The registry's dict has one entry per distinct tool name. -/
theorem buildDict_length_eq_dedup (L : List BaseTool) :
    (buildDict L).length = ((L.map (fun t => t.name)).dedup).length := by
  have h1 := keysOf_buildDict_nodup L
  have h2 := keysOf_buildDict_toFinset L
  have h3 : (buildDict L).length = (keysOf (buildDict L)).length := by simp [keysOf]
  rw [h3, ← List.toFinset_card_of_nodup h1, h2, List.card_toFinset]

/-- With pairwise-distinct names, the dict comprehension only ever appends:
the dict is the tool list itself, keyed, in order. -/
theorem buildDict_of_nodup_aux (L : List BaseTool) (d : List (String × BaseTool))
    (hd : ∀ t ∈ L, d.any (fun p => p.1 == t.name) = false)
    (hnd : (L.map (fun t => t.name)).Nodup) :
    L.foldl (fun d t => dictInsert d t.name t) d = d ++ L.map (fun t => (t.name, t)) := by
  induction L generalizing d with
  | nil => simp
  | cons t L ih =>
    rw [List.foldl_cons]
    have hnd' : t.name ∉ L.map (fun t => t.name) ∧ (L.map (fun t => t.name)).Nodup :=
      List.nodup_cons.mp (by rw [List.map_cons] at hnd; exact hnd)
    have hins : dictInsert d t.name t = d ++ [(t.name, t)] := by
      unfold dictInsert
      rw [if_neg (by rw [hd t (List.mem_cons_self t L)]; exact Bool.false_ne_true)]
    rw [hins, ih]
    · simp
    · intro s hs
      rw [List.any_append]
      have h1 := hd s (List.mem_cons_of_mem _ hs)
      have h2 : [(t.name, t)].any (fun p => p.1 == s.name) = false := by
        have : t.name ≠ s.name := fun hh => hnd'.1 (hh ▸ List.mem_map_of_mem _ hs)
        simpa using this
      rw [h1, h2]
      rfl
    · exact hnd'.2

/-! ### Tool-side lemmas -/

theorem counterBump_ne_nil (acc : List (String × Nat)) (w : String) :
    counterBump acc w ≠ [] := by
  unfold counterBump
  by_cases h : acc.any (fun p => p.1 == w) = true
  · rw [if_pos h]
    intro hmap
    rw [List.map_eq_nil_iff] at hmap
    subst hmap
    simp at h
  · rw [if_neg h]
    simp

theorem foldl_counterBump_ne_nil (ws : List String) (acc : List (String × Nat))
    (h : acc ≠ []) : ws.foldl counterBump acc ≠ [] := by
  induction ws generalizing acc with
  | nil => simpa using h
  | cons w ws ih =>
    rw [List.foldl_cons]
    exact ih _ (counterBump_ne_nil acc w)

theorem counterItems_ne_nil (ws : List String) (h : ws ≠ []) : counterItems ws ≠ [] := by
  cases ws with
  | nil => exact absurd rfl h
  | cons w ws =>
    unfold counterItems
    rw [List.foldl_cons]
    exact foldl_counterBump_ne_nil ws _ (counterBump_ne_nil [] w)

/-- A headline containing a whitespace token longer than 3 characters puts
its lower-cased form into the word list. -/
theorem plotWords_ne_nil (hs : List String)
    (h : ∃ hd ∈ hs, ∃ w ∈ pySplit hd, 3 < w.length) :
    plotWords hs ≠ [] := by
  obtain ⟨hd, hhd, w, hw, hlen⟩ := h
  intro hnil
  have hmem : pyLower w ∈ plotWords hs := by
    unfold plotWords
    rw [List.mem_flatMap]
    exact ⟨hd, hhd, List.mem_map_of_mem _ (List.mem_filter.mpr ⟨hw, by simpa using hlen⟩)⟩
  rw [hnil] at hmem
  exact absurd hmem (List.not_mem_nil _)

theorem plotChartData_ne_nil (hs : List String) (h : plotWords hs ≠ []) :
    plotChartData hs ≠ [] := by
  have hitems := counterItems_ne_nil _ h
  have hlen := List.length_insertionSort cntGE (counterItems (plotWords hs))
  unfold plotChartData
  cases hcase : List.insertionSort cntGE (counterItems (plotWords hs)) with
  | nil =>
    rw [hcase] at hlen
    exact absurd (List.length_eq_zero.mp hlen.symm) hitems
  | cons a t => simp

theorem pyRound3_zero : pyRound3 0 = 0 := by
  unfold pyRound3
  norm_num [pyRoundHalfEven]

/-! ### Claim theorems -/

/-- C1: for every registry built from a tool list `L` and every `name` not
among `L`'s tool names, `execute name args` fails with the tool-not-found
error naming the unresolved name, for every `args`. -/
theorem execute_unknown_tool_fails (L : List BaseTool) (name : String) (args : Args)
    (h : name ∉ L.map (fun t => t.name)) :
    (ToolRegistry.ofList L).execute name args = .error (.toolNotFound name) := by
  unfold ToolRegistry.execute
  have hfind : dictFind (ToolRegistry.ofList L)._tools name = none := by
    show dictFind (buildDict L) name = none
    rw [dictFind_buildDict]
    exact lastTool_eq_none L name h
  rw [hfind]

/-- C1 witness: a concrete registry, unknown name and argument dict. -/
theorem execute_unknown_tool_fails_witness :
    (ToolRegistry.ofList [chooseTransportTool]).execute "nope" []
      = .error (.toolNotFound "nope") :=
  execute_unknown_tool_fails [chooseTransportTool] "nope" [] (by decide)

/-- C2: for every registered tool name (resolving to tool `t`) and every
argument dict conforming to `t`'s schema, `execute` returns exactly
`t.run args`, and any failure of `t.run` propagates to the caller
unmodified — the registry performs no catching, wrapping or translation. -/
theorem execute_transparent_passthrough (L : List BaseTool) (name : String) (t : BaseTool)
    (args : Args)
    (hfound : dictFind (buildDict L) name = some t)
    (hconf : conformsTo args t.schema = true) :
    (ToolRegistry.ofList L).execute name args = t.run args
    ∧ ∀ e, t.run args = .error e →
        (ToolRegistry.ofList L).execute name args = .error e := by
  have hx : (ToolRegistry.ofList L).execute name args = t.run args := by
    unfold ToolRegistry.execute
    have hf : dictFind (ToolRegistry.ofList L)._tools name = some t := hfound
    rw [hf]
  exact ⟨hx, fun e he => hx.trans he⟩

/-- C2 witness: dispatching `choose_transport` through a concrete registry
agrees with calling the tool directly. -/
theorem execute_transparent_passthrough_witness :
    (ToolRegistry.ofList [chooseTransportTool]).execute "choose_transport"
        [("sla_hours", Value.vInt 2), ("volume", Value.vInt 1000), ("push", Value.vBool true)]
      = chooseTransportTool.run
        [("sla_hours", Value.vInt 2), ("volume", Value.vInt 1000), ("push", Value.vBool true)] :=
  (execute_transparent_passthrough [chooseTransportTool] "choose_transport" chooseTransportTool
    [("sla_hours", Value.vInt 2), ("volume", Value.vInt 1000), ("push", Value.vBool true)]
    rfl (by decide)).1

/-- C3: for a tool list with pairwise-distinct names, `schemas()` is one
entry per tool of `L`, in `L`'s order — in particular `L.length` entries. -/
theorem schemas_one_per_tool_in_order (L : List BaseTool)
    (h : (L.map (fun t => t.name)).Nodup) :
    (ToolRegistry.ofList L).schemas = L.map (fun t => t.schema)
    ∧ (ToolRegistry.ofList L).schemas.length = L.length := by
  have hb : buildDict L = L.map (fun t => (t.name, t)) := by
    have haux := buildDict_of_nodup_aux L [] (fun t _ => rfl) h
    simpa using haux
  have hs : (ToolRegistry.ofList L).schemas = L.map (fun t => t.schema) := by
    show (buildDict L).map (fun p => p.2.schema) = _
    rw [hb, List.map_map]
    rfl
  exact ⟨hs, by rw [hs, List.length_map]⟩

/-- C3 witness: a two-tool registry with distinct names. -/
theorem schemas_one_per_tool_in_order_witness :
    (ToolRegistry.ofList [chooseTransportTool, estimateCostTool]).schemas
      = [chooseTransportTool.schema, estimateCostTool.schema]
    ∧ (ToolRegistry.ofList [chooseTransportTool, estimateCostTool]).schemas.length = 2 :=
  schemas_one_per_tool_in_order [chooseTransportTool, estimateCostTool] (by decide)

/-- C9: construction from a list with duplicate names succeeds; a name
resolves to the LAST tool of the list carrying it (earlier duplicates are
silently shadowed), and `schemas()` has one entry per distinct name. -/
theorem registry_duplicate_last_write_wins (L : List BaseTool) (name : String) (args : Args)
    (t : BaseTool)
    (hlast : L.reverse.find? (fun u => u.name == name) = some t) :
    (ToolRegistry.ofList L).execute name args = t.run args
    ∧ (ToolRegistry.ofList L).schemas.length
        = ((L.map (fun u => u.name)).dedup).length := by
  constructor
  · unfold ToolRegistry.execute
    have hf : dictFind (ToolRegistry.ofList L)._tools name = some t := by
      show dictFind (buildDict L) name = some t
      rw [dictFind_buildDict]
      exact hlast
    rw [hf]
  · show ((buildDict L).map (fun p => p.2.schema)).length = _
    rw [List.length_map]
    exact buildDict_length_eq_dedup L

/-- C9 witness: two tools named `estimate_cost`; dispatch hits the second
and `schemas()` has a single entry. -/
theorem registry_duplicate_last_write_wins_witness :
    (ToolRegistry.ofList [estimateCostTool, estimateCostToolAlt]).execute "estimate_cost"
        [("transport", Value.vStr "Kafka"), ("volume", Value.vInt 1)]
      = estimateCostToolAlt.run [("transport", Value.vStr "Kafka"), ("volume", Value.vInt 1)]
    ∧ (ToolRegistry.ofList [estimateCostTool, estimateCostToolAlt]).schemas.length = 1 :=
  ⟨(registry_duplicate_last_write_wins [estimateCostTool, estimateCostToolAlt] "estimate_cost"
      [("transport", Value.vStr "Kafka"), ("volume", Value.vInt 1)] estimateCostToolAlt rfl).1,
   ((registry_duplicate_last_write_wins [estimateCostTool, estimateCostToolAlt] "estimate_cost"
      [("transport", Value.vStr "Kafka"), ("volume", Value.vInt 1)] estimateCostToolAlt rfl).2).trans
     (by decide)⟩

/-- C4: the transport selector returns `{transport: "Kafka"}` exactly when
`push` is true, `sla_hours ≥ 2` and `volume ≥ 1000`, and
`{transport: "API"}` otherwise; it is total and deterministic (a pure
function with these two outcomes and no error path). -/
theorem choose_transport_total_correct (s v : Int) (p : Bool) :
    (chooseTransportRun s v p = [("transport", Value.vStr "Kafka")]
        ↔ (p = true ∧ 2 ≤ s ∧ 1000 ≤ v))
    ∧ (¬(p = true ∧ 2 ≤ s ∧ 1000 ≤ v) →
        chooseTransportRun s v p = [("transport", Value.vStr "API")]) := by
  unfold chooseTransportRun
  by_cases h : p = true ∧ s ≥ 2 ∧ v ≥ 1000
  · rw [if_pos h]
    exact ⟨⟨fun _ => h, fun _ => rfl⟩, fun hn => absurd h hn⟩
  · rw [if_neg h]
    exact ⟨⟨fun hh => absurd hh (by decide), fun hh => absurd hh h⟩, fun _ => rfl⟩

/-- C5: the cost estimator's result depends only on `transport` (identical
across any two `volume` values), and likewise the latency estimator's
result is identical across any two `sla_hours` values. -/
theorem estimators_ignore_secondary_inputs (tr : String) (v1 v2 s1 s2 : Int) :
    estimateCostTool.run [("transport", Value.vStr tr), ("volume", Value.vInt v1)]
      = estimateCostTool.run [("transport", Value.vStr tr), ("volume", Value.vInt v2)]
    ∧ estimateLatencyTool.run [("transport", Value.vStr tr), ("sla_hours", Value.vInt s1)]
      = estimateLatencyTool.run [("transport", Value.vStr tr), ("sla_hours", Value.vInt s2)] :=
  ⟨rfl, rfl⟩

/-- C6: the sentiment aggregator on an empty `headlines` sequence returns
`{average_sentiment: 0}` — the explicit zero default, no division error —
whatever the polarity collaborator is, dispatched through the full
registry. -/
theorem sentiment_empty_returns_zero (feed : String → List String) (polarity : String → ℚ) :
    (ToolRegistry.ofList (allTools feed polarity)).execute "analyze_sentiment"
        [("headlines", Value.vStrList [])]
      = .ok [("average_sentiment", Value.vRat 0)] := by
  show Except.ok (analyzeSentimentRun polarity []) = _
  unfold analyzeSentimentRun
  simp [pyRound3_zero]

/-- C7: on a non-empty `headlines` sequence containing at least one
whitespace token of length > 3, the topic-frequency visualizer succeeds
with `{status: "plot_created"}`, and the selected chart data — counts of
the lower-cased tokens of length > 3, stably sorted by frequency — is
non-empty, has at most 10 entries, and is ordered by descending count. -/
theorem plot_topic_frequency_ok (hs : List String) (hne : hs ≠ [])
    (htok : ∃ hd ∈ hs, ∃ w ∈ pySplit hd, 3 < w.length) :
    plotTopicFrequencyTool.run [("headlines", Value.vStrList hs)]
      = .ok [("status", Value.vStr "plot_created")]
    ∧ plotChartData hs ≠ []
    ∧ (plotChartData hs).length ≤ 10
    ∧ List.Sorted cntGE (plotChartData hs) := by
  have hchart : plotChartData hs ≠ [] := plotChartData_ne_nil hs (plotWords_ne_nil hs htok)
  refine ⟨?_, hchart, ?_, ?_⟩
  · show plotTopicFrequencyRun hs = _
    unfold plotTopicFrequencyRun
    rw [if_neg hchart]
  · exact List.length_take_le 10 _
  · exact List.Pairwise.sublist (List.take_sublist _ _)
      (List.sorted_insertionSort cntGE (counterItems (plotWords hs)))

/-- C7 witness: two headlines with qualifying tokens. -/
theorem plot_topic_frequency_ok_witness :
    plotTopicFrequencyTool.run [("headlines", Value.vStrList ["Alpha beta", "alpha news"])]
      = .ok [("status", Value.vStr "plot_created")] :=
  (plot_topic_frequency_ok ["Alpha beta", "alpha news"] (by decide) (by decide)).1

/-- C8: when the top-10 selection has zero candidates (`headlines` empty,
or every whitespace token of length ≤ 3), the visualizer fails (the
`zip(*counts)` unpacking raises) rather than returning
`{status: "plot_created"}`. -/
theorem plot_zero_candidates_fails (hs : List String)
    (h : ∀ hd ∈ hs, ∀ w ∈ pySplit hd, w.length ≤ 3) :
    plotTopicFrequencyTool.run [("headlines", Value.vStrList hs)]
      = .error (.valueError "not enough values to unpack") := by
  have hwords : plotWords hs = [] := by
    unfold plotWords
    rw [List.flatMap_eq_nil_iff]
    intro hd hhd
    rw [List.map_eq_nil_iff, List.filter_eq_nil_iff]
    intro w hw
    simpa using Nat.not_lt.mpr (h hd hhd w hw)
  have hchart : plotChartData hs = [] := by
    unfold plotChartData
    rw [hwords]
    rfl
  show plotTopicFrequencyRun hs = _
  unfold plotTopicFrequencyRun
  rw [if_pos hchart]

/-- C8 witness: the spec's example, where no token is longer than 3. -/
theorem plot_zero_candidates_fails_witness :
    plotTopicFrequencyTool.run
        [("headlines", Value.vStrList ["the cat sat", "the cat ran"])]
      = .error (.valueError "not enough values to unpack") :=
  plot_zero_candidates_fails ["the cat sat", "the cat ran"] (by decide)

/-- C10: the schema enums are not enforced at execution: any `transport`
other than exactly `"Kafka"` (e.g. `"kafka"`, `"API2"`, `""`) is accepted
and routed to the non-Kafka labels, not rejected. -/
theorem estimators_no_enum_enforcement (tr : String) (v s : Int) (h : tr ≠ "Kafka") :
    estimateCostTool.run [("transport", Value.vStr tr), ("volume", Value.vInt v)]
      = .ok [("cost", Value.vStr "Low–Medium (stateless scaling)")]
    ∧ estimateLatencyTool.run [("transport", Value.vStr tr), ("sla_hours", Value.vInt s)]
      = .ok [("latency", Value.vStr "Milliseconds–Seconds (sync)")] := by
  constructor
  · show Except.ok (estimateCostRun tr v) = _
    unfold estimateCostRun
    rw [if_neg h]
  · show Except.ok (estimateLatencyRun tr s) = _
    unfold estimateLatencyRun
    rw [if_neg h]

/-- C10 witness: the out-of-enum transport `"kafka"`. -/
theorem estimators_no_enum_enforcement_witness :
    estimateCostTool.run [("transport", Value.vStr "kafka"), ("volume", Value.vInt 7)]
      = .ok [("cost", Value.vStr "Low–Medium (stateless scaling)")]
    ∧ estimateLatencyTool.run [("transport", Value.vStr "kafka"), ("sla_hours", Value.vInt 7)]
      = .ok [("latency", Value.vStr "Milliseconds–Seconds (sync)")] :=
  estimators_no_enum_enforcement "kafka" 7 7 (by decide)

/-- C4 witness: the spec's boundary example `{sla_hours: 2, volume: 1000,
push: true}` selects Kafka. -/
theorem choose_transport_total_correct_witness :
    chooseTransportRun 2 1000 true = [("transport", Value.vStr "Kafka")] :=
  (choose_transport_total_correct 2 1000 true).1.mpr (by decide)
